import Mathlib

/-!
Verification of the virtio-net control-queue utilities
(virtio-devices/src/net_util.rs): a shallow embedding of the
control-command processor (process_cvq and process_mq), the multiqueue
configuration-space builder (build_net_config_space_with_mq), and the
control event loop (run_ctrl), together with theorems about them.

Machine integers are modelled as Nat with explicit wrap-arounds where the
source casts (the `as u16` truncation in the builder is `% 65536`).
Guest memory is an association list from byte address to byte value; an
address is mapped exactly when it has an entry, and typed reads and
writes fail on unmapped addresses, mirroring the fallible vm-memory
read_obj and write_obj operations.
-/

set_option autoImplicit false

/-- Constant from the virtio bindings: command class for multiqueue control. -/
def VIRTIO_NET_CTRL_MQ : Nat := 4

/-- Constant from the virtio bindings: the set-pairs command code. -/
def VIRTIO_NET_CTRL_MQ_VQ_PAIRS_SET : Nat := 0

/-- Constant from the virtio bindings: minimum admissible queue-pair count. -/
def VIRTIO_NET_CTRL_MQ_VQ_PAIRS_MIN : Nat := 1

/-- Constant from the virtio bindings: maximum admissible queue-pair count. -/
def VIRTIO_NET_CTRL_MQ_VQ_PAIRS_MAX : Nat := 0x8000

/-- Constant from the virtio bindings: feature bit for MAC address. -/
def VIRTIO_NET_F_MAC : Nat := 5

/-- Constant from the virtio bindings: feature bit for multiqueue. -/
def VIRTIO_NET_F_MQ : Nat := 22

/-- Event-source tag for the control-queue notification. -/
def CTRL_QUEUE_EVENT : Nat := 0

/-- Event-source tag for the kill (termination) signal. -/
def KILL_EVENT : Nat := 3

/-- Event-source tag for the pause signal. -/
def PAUSE_EVENT : Nat := 4

/-- Guest memory: an association list from byte address to byte value. -/
abbrev Mem := List (Nat × Nat)

/-- Byte lookup: the value stored at address a, or none when a is unmapped. -/
def Mem.getByte : Mem → Nat → Option Nat
  | [], _ => none
  | (k, b) :: t, a => if k = a then some b else Mem.getByte t a

/-- Typed 2-byte little-endian read at address a, mirroring
read_obj::<u16>; fails with a guest-memory fault (none) when either byte
is unmapped. -/
def Mem.read_u16 (m : Mem) (a : Nat) : Option Nat :=
  match m.getByte a, m.getByte (a + 1) with
  | some b0, some b1 => some (b0 + 256 * b1)
  | _, _ => none

/-- Typed 1-byte write of v at address a, mirroring write_obj::<u8>;
fails with a guest-memory fault (none) when the address is unmapped,
otherwise returns the updated memory. -/
def Mem.write_u8 (m : Mem) (v a : Nat) : Option Mem :=
  if (m.getByte a).isSome then
    some (m.map (fun p => if p.1 = a then (a, v % 256) else p))
  else
    none

/-- Error enum of net_util.rs. -/
inductive Error where
  | FailedProcessMQ
  | GuestMemory
  | InvalidCtlClass
  | InvalidCtlCmd
  | InvalidDesc
  | InvalidQueuePairsNum
  | NoMemory
  | NoQueuePairsNum
deriving DecidableEq, Repr

/-- One link of a DescriptorChain: descriptor-table index, guest address,
length, the NEXT flag (what has_next reads), and the structural successor.
The last constructor models a link whose descriptor table provides no
successor even when the flag claims one; following such a link is exactly
the case where next_descriptor returns None and an unwrap would panic. -/
inductive Descriptor where
  | last (index addr len : Nat) (flagNext : Bool)
  | cons (index addr len : Nat) (flagNext : Bool) (next : Descriptor)
deriving DecidableEq, Repr

/-- Descriptor-table index of the chain head. -/
def Descriptor.index : Descriptor → Nat
  | .last i _ _ _ => i
  | .cons i _ _ _ _ => i

/-- Guest address of the buffer this link describes. -/
def Descriptor.addr : Descriptor → Nat
  | .last _ a _ _ => a
  | .cons _ a _ _ _ => a

/-- Byte length of the buffer this link describes. -/
def Descriptor.len : Descriptor → Nat
  | .last _ _ l _ => l
  | .cons _ _ l _ _ => l

/-- The NEXT flag, as read by DescriptorChain::has_next. -/
def Descriptor.has_next : Descriptor → Bool
  | .last _ _ _ f => f
  | .cons _ _ _ f _ => f

/-- The successor link, as returned by DescriptorChain::next_descriptor. -/
def Descriptor.next_descriptor : Descriptor → Option Descriptor
  | .last _ _ _ _ => none
  | .cons _ _ _ _ n => some n

/-- Well-formedness of a chain: every link whose NEXT flag is set has a
structural successor, so has_next = true implies next_descriptor is some. -/
def Descriptor.wf : Descriptor → Bool
  | .last _ _ _ f => !f
  | .cons _ _ _ _ n => Descriptor.wf n

/-- Outcome of process_mq: a panic (an unwrap of None), an error carrying
the (unchanged) guest memory, or success carrying the updated memory. -/
inductive MqOutcome where
  | panicked
  | err (e : Error) (m : Mem)
  | ok (m : Mem)
deriving DecidableEq, Repr

/-- CtrlVirtio::process_mq: follow the chain to the payload descriptor
(failing NoQueuePairsNum when has_next is false, panicking when the
unwrap of next_descriptor meets None), read the 16-bit queue-pair count,
range-check it against the MIN and MAX constants, follow to the status
descriptor, and write the single status byte 0 there. -/
def process_mq (mem : Mem) (avail_desc : Descriptor) : MqOutcome :=
  if avail_desc.has_next then
    match avail_desc.next_descriptor with
    | none => .panicked
    | some mq_desc =>
      match mem.read_u16 mq_desc.addr with
      | none => .err .GuestMemory mem
      | some queue_pairs =>
        if queue_pairs < VIRTIO_NET_CTRL_MQ_VQ_PAIRS_MIN ∨
            VIRTIO_NET_CTRL_MQ_VQ_PAIRS_MAX < queue_pairs then
          .err .InvalidQueuePairsNum mem
        else
          if mq_desc.has_next then
            match mq_desc.next_descriptor with
            | none => .panicked
            | some status_desc =>
              match mem.write_u8 0 status_desc.addr with
              | none => .err .GuestMemory mem
              | some m2 => .ok m2
          else .err .NoQueuePairsNum mem
  else .err .NoQueuePairsNum mem

/-- The control virtqueue as seen through the narrow interface process_cvq
uses: the list of available descriptor chains in order (iter().next()
consumes the head), the used ring entries posted so far (index, length),
and a count of update_avail_event calls. -/
structure Queue where
  avail : List Descriptor
  used : List (Nat × Nat)
  availEventUpdates : Nat
deriving DecidableEq, Repr

/-- Outcome of process_cvq: a panic propagated from process_mq, an error
carrying the queue and memory as left behind, or success. -/
inductive CvqOutcome where
  | panicked
  | err (e : Error) (q : Queue) (m : Mem)
  | ok (q : Queue) (m : Mem)
deriving DecidableEq, Repr

/-- CtrlVirtio::process_cvq: pop the next available chain (failing
InvalidDesc when none), record its (index, len) for later posting, read
the 2-byte control header whose low byte is the class and high byte the
command code, dispatch by class (only VIRTIO_NET_CTRL_MQ is known, and
within it only the set-pairs code), and, only on the path that falls
through to the final loop, post the recorded entry to the used ring and
update the available-event index. Every error branch of the source is a
return that happens before that loop, so the err outcomes carry an
unchanged used ring. -/
def process_cvq (q : Queue) (mem : Mem) : CvqOutcome :=
  match q.avail with
  | [] => .err .InvalidDesc q mem
  | avail_desc :: rest =>
    let q1 : Queue := { q with avail := rest }
    match mem.read_u16 avail_desc.addr with
    | none => .err .GuestMemory q1 mem
    | some ctrl_hdr =>
      let cls := ctrl_hdr % 256
      let cmd := ctrl_hdr / 256
      if cls = VIRTIO_NET_CTRL_MQ then
        if cmd ≠ VIRTIO_NET_CTRL_MQ_VQ_PAIRS_SET then
          .err .InvalidCtlCmd q1 mem
        else
          match process_mq mem avail_desc with
          | .panicked => .panicked
          | .err _ m2 => .err .FailedProcessMQ q1 m2
          | .ok m2 =>
            .ok { q1 with
                    used := q1.used ++ [(avail_desc.index, avail_desc.len)],
                    availEventUpdates := q1.availEventUpdates + 1 } m2
      else .err .InvalidCtlClass q1 mem

/-- The packed VirtioNetConfig record (mac as its 6 bytes). -/
structure VirtioNetConfig where
  mac : List Nat
  status : Nat
  max_virtqueue_pairs : Nat
  mtu : Nat
  speed : Nat
  duplex : Nat
deriving DecidableEq, Repr

/-- build_net_config_space_with_mq: num_queue_pairs is (num_queues / 2)
cast to u16 (hence the % 65536); when it lies within
[VIRTIO_NET_CTRL_MQ_VQ_PAIRS_MIN, VIRTIO_NET_CTRL_MQ_VQ_PAIRS_MAX] the
field max_virtqueue_pairs is set and the VIRTIO_NET_F_MQ feature bit is
ored into avail_features; otherwise both are left untouched. Returns the
updated (config, avail_features) pair; the source mutates them in place. -/
def build_net_config_space_with_mq (config : VirtioNetConfig) (num_queues : Nat)
    (avail_features : Nat) : VirtioNetConfig × Nat :=
  let num_queue_pairs := (num_queues / 2) % 65536
  if VIRTIO_NET_CTRL_MQ_VQ_PAIRS_MIN ≤ num_queue_pairs ∧
      num_queue_pairs ≤ VIRTIO_NET_CTRL_MQ_VQ_PAIRS_MAX then
    ({ config with max_virtqueue_pairs := num_queue_pairs },
      avail_features ||| (1 <<< VIRTIO_NET_F_MQ))
  else
    (config, avail_features)

/-- build_net_config_space: copy the MAC bytes into the structure, set the
VIRTIO_NET_F_MAC feature bit, then delegate to the multiqueue builder. -/
def build_net_config_space (config : VirtioNetConfig) (mac : List Nat)
    (num_queues : Nat) (avail_features : Nat) : VirtioNetConfig × Nat :=
  build_net_config_space_with_mq { config with mac := mac } num_queues
    (avail_features ||| (1 <<< VIRTIO_NET_F_MAC))

/-- One result of the blocking epoll wait in run_ctrl: an interrupted
wait (EINTR), any other wait failure, or a batch of ready events carrying
their event-data tags. -/
inductive WaitResult where
  | interrupted
  | fatal
  | ready (evs : List Nat)
deriving DecidableEq, Repr

/-- How run_ctrl left the wait loop: Ok(()) via the kill event, or the
abnormal Err(EpollWait) return. -/
inductive LoopExit where
  | normal
  | epollWaitErr
deriving DecidableEq, Repr

/-- Observable result of a run of the loop body over a finite trace of
wait results: how (and whether) the loop exited, how many times
process_cvq was invoked, and whether the epoll handle has been closed
(the source wraps the fd in a File so that scope exit closes it; a run
that is still blocked in the loop has not closed it yet). -/
structure RunResult where
  exit : Option LoopExit
  cvqCalls : Nat
  epollClosed : Bool
deriving DecidableEq, Repr

/-- The per-batch for loop of run_ctrl over the ready events: a
control-queue event drains the notification and invokes process_cvq (its
errors are logged and do not stop the loop), the kill event breaks out of
the epoll loop at once (remaining events of the batch are not processed),
the pause event parks until resumed, and unknown tags are logged. Returns
the number of process_cvq invocations and whether the kill break fired. -/
def processEvents : List Nat → Nat × Bool
  | [] => (0, false)
  | ev :: rest =>
    if ev = KILL_EVENT then (0, true)
    else if ev = CTRL_QUEUE_EVENT then
      let r := processEvents rest
      (r.1 + 1, r.2)
    else processEvents rest

/-- NetCtrlEpollHandler::run_ctrl, from the top of the epoll loop, driven
by a finite trace of wait results (an exhausted trace models a loop still
blocked in the wait). An interrupted wait retries; any other wait failure
returns the error; a ready batch is processed by processEvents and the
loop either breaks (kill seen) or continues with the rest of the trace. -/
def run_ctrl : List WaitResult → RunResult
  | [] => ⟨none, 0, false⟩
  | .interrupted :: t => run_ctrl t
  | .fatal :: _ => ⟨some .epollWaitErr, 0, true⟩
  | .ready evs :: t =>
    let r := processEvents evs
    if r.2 then ⟨some .normal, r.1, true⟩
    else
      let rec_ := run_ctrl t
      ⟨rec_.exit, r.1 + rec_.cvqCalls, rec_.epollClosed⟩

/-- Whether a trace contains a ready batch holding the kill event. -/
def traceHasKill : List WaitResult → Bool
  | [] => false
  | .interrupted :: t => traceHasKill t
  | .fatal :: t => traceHasKill t
  | .ready evs :: t => evs.contains KILL_EVENT || traceHasKill t

/-! Helper lemmas about guest-memory writes, the builder, the event loop,
and well-formed descriptor chains. -/

lemma getByte_map_write_self (v a : Nat) :
    ∀ (m : Mem), (Mem.getByte m a).isSome = true →
      Mem.getByte (m.map (fun p => if p.1 = a then (a, v % 256) else p)) a =
        some (v % 256) := by
  intro m
  induction m with
  | nil => intro h; simp [Mem.getByte] at h
  | cons p t ih =>
    obtain ⟨k, b⟩ := p
    intro h
    by_cases hk : k = a
    · subst hk
      have hf : (fun p : Nat × Nat => if p.1 = k then (k, v % 256) else p) (k, b) =
          (k, v % 256) := by simp
      simp only [List.map_cons, hf]
      simp [Mem.getByte]
    · simp only [Mem.getByte, hk, if_false] at h
      have hf : (fun p : Nat × Nat => if p.1 = a then (a, v % 256) else p) (k, b) =
          (k, b) := by simp [hk]
      simp only [List.map_cons, hf]
      simp only [Mem.getByte, hk, if_false]
      exact ih h

lemma getByte_map_write_other (v a : Nat) :
    ∀ (m : Mem) (b : Nat), b ≠ a →
      Mem.getByte (m.map (fun p => if p.1 = a then (a, v % 256) else p)) b =
        Mem.getByte m b := by
  intro m
  induction m with
  | nil => intro b _; simp [Mem.getByte]
  | cons p t ih =>
    obtain ⟨k, c⟩ := p
    intro b hb
    by_cases hk : k = a
    · subst hk
      have hkb : ¬(k = b) := fun he => hb he.symm
      simp only [List.map, if_pos rfl]
      simp only [Mem.getByte, hkb, if_false]
      exact ih b hb
    · simp only [List.map, hk, if_false]
      by_cases hkb : k = b
      · subst hkb
        simp [Mem.getByte]
      · simp only [Mem.getByte, hkb, if_false]
        exact ih b hb

lemma write_u8_getByte_self (m m2 : Mem) (v a : Nat)
    (h : m.write_u8 v a = some m2) : m2.getByte a = some (v % 256) := by
  unfold Mem.write_u8 at h
  by_cases hm : (Mem.getByte m a).isSome = true
  · rw [if_pos hm] at h
    injection h with h
    subst h
    exact getByte_map_write_self v a m hm
  · rw [if_neg hm] at h
    cases h

lemma write_u8_getByte_other (m m2 : Mem) (v a : Nat)
    (h : m.write_u8 v a = some m2) :
    ∀ b, b ≠ a → m2.getByte b = m.getByte b := by
  unfold Mem.write_u8 at h
  by_cases hm : (Mem.getByte m a).isSome = true
  · rw [if_pos hm] at h
    injection h with h
    subst h
    intro b hb
    exact getByte_map_write_other v a m b hb
  · rw [if_neg hm] at h
    cases h

lemma build_mq_pos (c : VirtioNetConfig) (n f : Nat)
    (h : VIRTIO_NET_CTRL_MQ_VQ_PAIRS_MIN ≤ (n / 2) % 65536 ∧
      (n / 2) % 65536 ≤ VIRTIO_NET_CTRL_MQ_VQ_PAIRS_MAX) :
    build_net_config_space_with_mq c n f =
      ({ c with max_virtqueue_pairs := (n / 2) % 65536 },
        f ||| (1 <<< VIRTIO_NET_F_MQ)) := by
  simp only [build_net_config_space_with_mq]
  rw [if_pos h]

lemma build_mq_neg (c : VirtioNetConfig) (n f : Nat)
    (h : ¬(VIRTIO_NET_CTRL_MQ_VQ_PAIRS_MIN ≤ (n / 2) % 65536 ∧
      (n / 2) % 65536 ≤ VIRTIO_NET_CTRL_MQ_VQ_PAIRS_MAX)) :
    build_net_config_space_with_mq c n f = (c, f) := by
  simp only [build_net_config_space_with_mq]
  rw [if_neg h]

lemma processEvents_kill (evs : List Nat) (h : KILL_EVENT ∈ evs) :
    (processEvents evs).2 = true := by
  induction evs with
  | nil => cases h
  | cons ev rest ih =>
    by_cases he : ev = KILL_EVENT
    · simp [processEvents, he]
    · have hr : KILL_EVENT ∈ rest := by
        cases h with
        | head => exact absurd rfl he
        | tail _ h2 => exact h2
      by_cases hc : ev = CTRL_QUEUE_EVENT
      · subst hc
        simp [processEvents, he, ih hr]
      · simp [processEvents, he, hc, ih hr]

lemma processEvents_kill_mem (evs : List Nat)
    (h : (processEvents evs).2 = true) : KILL_EVENT ∈ evs := by
  induction evs with
  | nil => simp [processEvents] at h
  | cons ev rest ih =>
    by_cases he : ev = KILL_EVENT
    · subst he; exact List.mem_cons_self _ _
    · by_cases hc : ev = CTRL_QUEUE_EVENT
      · simp only [processEvents, he, if_false, hc, if_pos rfl] at h
        exact List.mem_cons_of_mem _ (ih h)
      · simp only [processEvents, he, if_false, hc] at h
        exact List.mem_cons_of_mem _ (ih h)

lemma run_ctrl_exit_closed (t : List WaitResult)
    (h : (run_ctrl t).exit.isSome = true) : (run_ctrl t).epollClosed = true := by
  induction t with
  | nil => simp [run_ctrl] at h
  | cons w rest ih =>
    cases w with
    | interrupted => exact ih h
    | fatal => rfl
    | ready evs =>
      by_cases hk : (processEvents evs).2 = true
      · simp [run_ctrl, hk]
      · simp only [run_ctrl, hk, if_false] at h ⊢
        exact ih h

lemma run_ctrl_normal_kill (t : List WaitResult)
    (h : (run_ctrl t).exit = some .normal) : traceHasKill t = true := by
  induction t with
  | nil => simp [run_ctrl] at h
  | cons w rest ih =>
    cases w with
    | interrupted => exact ih h
    | fatal => simp [run_ctrl] at h
    | ready evs =>
      by_cases hk : (processEvents evs).2 = true
      · simp only [traceHasKill, Bool.or_eq_true]
        exact Or.inl (by simpa using processEvents_kill_mem evs hk)
      · simp only [run_ctrl, hk, if_false] at h
        simp [traceHasKill, ih h]

lemma Descriptor.wf_next (d : Descriptor) (hwf : d.wf = true)
    (hn : d.has_next = true) :
    ∃ nd, d.next_descriptor = some nd ∧ nd.wf = true := by
  cases d with
  | last i a l f =>
    simp only [Descriptor.wf, Bool.not_eq_true'] at hwf
    simp only [Descriptor.has_next] at hn
    rw [hwf] at hn
    cases hn
  | cons i a l f nd =>
    exact ⟨nd, rfl, by simpa [Descriptor.wf] using hwf⟩

/-! Concrete fixtures used by witnesses and counterexamples. -/

/-- A single-link chain (index 5, addr 0, len 2) with no successor. -/
def d0 : Descriptor := .last 5 0 2 false

/-- Guest memory holding the two header bytes 0, 0 at addresses 0 and 1,
so the command class is 0 and the command code is 0. -/
def mem0 : Mem := [(0, 0), (1, 0)]

/-- A control queue exposing exactly the chain d0. -/
def q0 : Queue := ⟨[d0], [], 0⟩

/-- An all-zero configuration structure. -/
def c0 : VirtioNetConfig := ⟨[0, 0, 0, 0, 0, 0], 0, 0, 0, 0, 0⟩

/-- C1: the spec says every drained descriptor chain is posted to the used
ring exactly once even when dispatch fails, but evaluating process_cvq on
a chain whose header class is 0 (not VIRTIO_NET_CTRL_MQ) shows the call
returns InvalidCtlClass with the used ring still empty and the
available-event index not updated: the early error return precedes the
posting loop, so the consumed descriptor is never retired. -/
theorem C1_dispatch_failure_skips_used_posting :
    process_cvq q0 mem0 = .err .InvalidCtlClass (Queue.mk [] [] 0) mem0 ∧
    (Queue.mk ([] : List Descriptor) [] 0).used.length = 0 := by
  exact ⟨rfl, rfl⟩

/-- C2 counterexample: at num_queues = 131074 the true quotient 65537 is
above VIRTIO_NET_CTRL_MQ_VQ_PAIRS_MAX, so by the claim the structure and
feature bits must be left untouched; the code instead truncates the
quotient to the u16 value 1, stores it, and sets the multiqueue feature
bit. -/
theorem C2_counterexample_truncating_cast :
    VIRTIO_NET_CTRL_MQ_VQ_PAIRS_MAX < 131074 / 2 ∧
    build_net_config_space_with_mq c0 131074 0 =
      ({ c0 with max_virtqueue_pairs := 1 }, 1 <<< VIRTIO_NET_F_MQ) ∧
    (1 : Nat) <<< VIRTIO_NET_F_MQ ≠ 0 := by
  refine ⟨by decide, ?_, by decide⟩
  decide

/-- C2 amended: build_net_config_space_with_mq computes
pairs = (num_queues / 2) mod 2^16 (the truncating u16 cast); if
MQ_PAIRS_MIN ≤ pairs ≤ MQ_PAIRS_MAX it stores pairs into the
max-queue-pairs field and sets the multiqueue feature bit, otherwise it
leaves both the structure and the feature bitmask unchanged, returning no
error in either case. -/
theorem C2_amended_mq_builder :
    ∀ (c : VirtioNetConfig) (n f : Nat),
      ((VIRTIO_NET_CTRL_MQ_VQ_PAIRS_MIN ≤ (n / 2) % 65536 ∧
          (n / 2) % 65536 ≤ VIRTIO_NET_CTRL_MQ_VQ_PAIRS_MAX) →
        build_net_config_space_with_mq c n f =
          ({ c with max_virtqueue_pairs := (n / 2) % 65536 },
            f ||| (1 <<< VIRTIO_NET_F_MQ))) ∧
      (¬(VIRTIO_NET_CTRL_MQ_VQ_PAIRS_MIN ≤ (n / 2) % 65536 ∧
          (n / 2) % 65536 ≤ VIRTIO_NET_CTRL_MQ_VQ_PAIRS_MAX) →
        build_net_config_space_with_mq c n f = (c, f)) :=
  fun c n f => ⟨build_mq_pos c n f, build_mq_neg c n f⟩

/-- C2 amended, witness: at num_queues = 6 the wrapped pair count 3 is in
range and is stored with the feature bit; at num_queues = 1 the wrapped
pair count 0 is below the minimum and nothing changes. -/
theorem C2_amended_mq_builder_witness :
    (VIRTIO_NET_CTRL_MQ_VQ_PAIRS_MIN ≤ (6 / 2) % 65536 ∧
      (6 / 2) % 65536 ≤ VIRTIO_NET_CTRL_MQ_VQ_PAIRS_MAX) ∧
    build_net_config_space_with_mq c0 6 0 =
      ({ c0 with max_virtqueue_pairs := (6 / 2) % 65536 },
        0 ||| (1 <<< VIRTIO_NET_F_MQ)) ∧
    build_net_config_space_with_mq c0 1 0 = (c0, 0) :=
  ⟨by decide, (C2_amended_mq_builder c0 6 0).1 (by decide),
    (C2_amended_mq_builder c0 1 0).2 (by decide)⟩

/-- C6: when the virtqueue exposes no available descriptor chain,
process_cvq fails with InvalidDesc and returns the queue and the guest
memory exactly as it received them: no used-ring posting, no
available-event update, and no guest-memory access. -/
theorem C6_empty_avail_invalid_desc :
    ∀ (q : Queue) (m : Mem), q.avail = [] →
      process_cvq q m = .err .InvalidDesc q m := by
  intro q m h
  unfold process_cvq
  rw [h]

/-- C6 witness at the empty queue. -/
theorem C6_empty_avail_invalid_desc_witness :
    (Queue.mk [] [] 0).avail = ([] : List Descriptor) ∧
    process_cvq (Queue.mk [] [] 0) [] =
      .err .InvalidDesc (Queue.mk [] [] 0) [] :=
  ⟨rfl, C6_empty_avail_invalid_desc (Queue.mk [] [] 0) [] rfl⟩

/-- C7: build_net_config_space_with_mq is idempotent: feeding its output
structure and feature bitmask back into it with the same num_queues
reproduces the same output. -/
theorem C7_mq_builder_idempotent :
    ∀ (c : VirtioNetConfig) (n f : Nat),
      build_net_config_space_with_mq (build_net_config_space_with_mq c n f).1 n
          (build_net_config_space_with_mq c n f).2 =
        build_net_config_space_with_mq c n f := by
  intro c n f
  by_cases h : VIRTIO_NET_CTRL_MQ_VQ_PAIRS_MIN ≤ (n / 2) % 65536 ∧
      (n / 2) % 65536 ≤ VIRTIO_NET_CTRL_MQ_VQ_PAIRS_MAX
  · have hb : (1 <<< VIRTIO_NET_F_MQ) ||| (1 <<< VIRTIO_NET_F_MQ) =
        (1 <<< VIRTIO_NET_F_MQ) := by simp
    rw [build_mq_pos c n f h]
    rw [build_mq_pos _ n _ h]
    rw [Nat.lor_assoc, hb]
  · rw [build_mq_neg c n f h]
    rw [build_mq_neg c n f h]

/-- C9: because of the truncating cast to u16, the queue-pair count the
builder range-checks and stores is (num_queues / 2) mod 2^16; whenever
num_queues / 2 is at least 2^16 it is the wrapped value that decides
between storing-and-advertising and leaving everything unchanged. -/
theorem C9_truncated_pairs_are_range_checked :
    ∀ (c : VirtioNetConfig) (n f : Nat), 65536 ≤ n / 2 →
      ((VIRTIO_NET_CTRL_MQ_VQ_PAIRS_MIN ≤ (n / 2) % 65536 ∧
          (n / 2) % 65536 ≤ VIRTIO_NET_CTRL_MQ_VQ_PAIRS_MAX) →
        build_net_config_space_with_mq c n f =
          ({ c with max_virtqueue_pairs := (n / 2) % 65536 },
            f ||| (1 <<< VIRTIO_NET_F_MQ))) ∧
      (((n / 2) % 65536 < VIRTIO_NET_CTRL_MQ_VQ_PAIRS_MIN ∨
          VIRTIO_NET_CTRL_MQ_VQ_PAIRS_MAX < (n / 2) % 65536) →
        build_net_config_space_with_mq c n f = (c, f)) := by
  intro c n f _
  refine ⟨build_mq_pos c n f, fun h2 => build_mq_neg c n f ?_⟩
  simp only [VIRTIO_NET_CTRL_MQ_VQ_PAIRS_MIN,
    VIRTIO_NET_CTRL_MQ_VQ_PAIRS_MAX] at h2 ⊢
  omega

/-- C9 witness: num_queues = 131074 has quotient 65537, which wraps to
the in-range value 1; the builder stores 1 and sets the feature bit. -/
theorem C9_truncated_pairs_witness :
    65536 ≤ 131074 / 2 ∧
    (VIRTIO_NET_CTRL_MQ_VQ_PAIRS_MIN ≤ (131074 / 2) % 65536 ∧
      (131074 / 2) % 65536 ≤ VIRTIO_NET_CTRL_MQ_VQ_PAIRS_MAX) ∧
    build_net_config_space_with_mq c0 131074 0 =
      ({ c0 with max_virtqueue_pairs := (131074 / 2) % 65536 },
        0 ||| (1 <<< VIRTIO_NET_F_MQ)) :=
  ⟨by decide, by decide,
    (C9_truncated_pairs_are_range_checked c0 131074 0 (by decide)).1 (by decide)⟩

/-- Status descriptor of the witness chain (index 2, addr 20, len 1). -/
def sdW : Descriptor := .last 2 20 1 false

/-- Payload descriptor of the witness chain (index 1, addr 10, len 2). -/
def pdW : Descriptor := .cons 1 10 2 true sdW

/-- Header descriptor of the witness chain (index 0, addr 0, len 2). -/
def dW : Descriptor := .cons 0 0 2 true pdW

/-- Witness guest memory: payload u16 = 4 at address 10, a status buffer
byte at address 20 initialised to 9. -/
def memW : Mem := [(10, 4), (11, 0), (20, 9)]

/-- The witness memory after the status write: the byte at 20 became 0. -/
def memW2 : Mem := [(10, 4), (11, 0), (20, 0)]

/-- C3: for a multiqueue set-pairs chain with a payload descriptor and a
status descriptor, a payload value n within
[VIRTIO_NET_CTRL_MQ_VQ_PAIRS_MIN, VIRTIO_NET_CTRL_MQ_VQ_PAIRS_MAX], and a
mapped status address, process_mq succeeds, the byte at the status
address becomes 0, and no other guest byte changes. -/
theorem C3_in_range_writes_status_zero :
    ∀ (m : Mem) (d pd sd : Descriptor) (n : Nat) (m2 : Mem),
      d.has_next = true →
      d.next_descriptor = some pd →
      m.read_u16 pd.addr = some n →
      VIRTIO_NET_CTRL_MQ_VQ_PAIRS_MIN ≤ n →
      n ≤ VIRTIO_NET_CTRL_MQ_VQ_PAIRS_MAX →
      pd.has_next = true →
      pd.next_descriptor = some sd →
      m.write_u8 0 sd.addr = some m2 →
      process_mq m d = .ok m2 ∧
      m2.getByte sd.addr = some 0 ∧
      ∀ b, b ≠ sd.addr → m2.getByte b = m.getByte b := by
  intro m d pd sd n m2 h1 h2 h3 hmin hmax h4 h5 h6
  have hrange : ¬(n < VIRTIO_NET_CTRL_MQ_VQ_PAIRS_MIN ∨
      VIRTIO_NET_CTRL_MQ_VQ_PAIRS_MAX < n) := by
    simp only [VIRTIO_NET_CTRL_MQ_VQ_PAIRS_MIN,
      VIRTIO_NET_CTRL_MQ_VQ_PAIRS_MAX] at hmin hmax ⊢
    omega
  refine ⟨?_, ?_, ?_⟩
  · simp [process_mq, h1, h2, h3, hrange, h4, h5, h6]
  · have hz := write_u8_getByte_self m m2 0 sd.addr h6
    simpa using hz
  · intro b hb
    exact write_u8_getByte_other m m2 0 sd.addr h6 b hb

/-- C3 witness: the concrete chain dW with payload 4 succeeds and turns
the status byte at address 20 from 9 into 0. -/
theorem C3_in_range_writes_status_zero_witness :
    memW.read_u16 pdW.addr = some 4 ∧
    memW.write_u8 0 sdW.addr = some memW2 ∧
    process_mq memW dW = .ok memW2 ∧
    memW2.getByte sdW.addr = some 0 :=
  ⟨by decide, by decide,
    (C3_in_range_writes_status_zero memW dW pdW sdW 4 memW2 rfl rfl (by decide)
      (by decide) (by decide) rfl rfl (by decide)).1,
    (C3_in_range_writes_status_zero memW dW pdW sdW 4 memW2 rfl rfl (by decide)
      (by decide) (by decide) rfl rfl (by decide)).2.1⟩

/-- C4: for a multiqueue set-pairs chain whose payload value n lies below
VIRTIO_NET_CTRL_MQ_VQ_PAIRS_MIN or above VIRTIO_NET_CTRL_MQ_VQ_PAIRS_MAX,
process_mq fails with InvalidQueuePairsNum and hands back the guest
memory it was given, unmodified: no status byte is written. -/
theorem C4_out_of_range_rejected_no_write :
    ∀ (m : Mem) (d pd : Descriptor) (n : Nat),
      d.has_next = true →
      d.next_descriptor = some pd →
      m.read_u16 pd.addr = some n →
      (n < VIRTIO_NET_CTRL_MQ_VQ_PAIRS_MIN ∨
        VIRTIO_NET_CTRL_MQ_VQ_PAIRS_MAX < n) →
      process_mq m d = .err .InvalidQueuePairsNum m := by
  intro m d pd n h1 h2 h3 h4
  simp [process_mq, h1, h2, h3, h4]

/-- Guest memory for the C4 witness: payload u16 = 0 at address 10. -/
def mem4 : Mem := [(10, 0), (11, 0)]

/-- C4 witness: payload value 0 is below the minimum; the memory comes
back exactly as it went in. -/
theorem C4_out_of_range_rejected_no_write_witness :
    Mem.read_u16 mem4 pdW.addr = some 0 ∧
    process_mq mem4 dW = .err .InvalidQueuePairsNum mem4 :=
  ⟨by decide,
    C4_out_of_range_rejected_no_write mem4 dW pdW 0 rfl rfl
      (by decide) (by decide)⟩

/-- C5: dispatch in process_cvq is decided by the 2-byte header read from
the first descriptor, low byte the class and high byte the code: a
multiqueue-class command with a code other than set-pairs fails
InvalidCtlCmd, a class other than VIRTIO_NET_CTRL_MQ fails
InvalidCtlClass, and any error of the multiqueue sub-routine surfaces as
the single error FailedProcessMQ. -/
theorem C5_header_dispatch :
    ∀ (q : Queue) (m : Mem) (d : Descriptor) (rest : List Descriptor) (h : Nat),
      q.avail = d :: rest →
      m.read_u16 d.addr = some h →
      ((h % 256 = VIRTIO_NET_CTRL_MQ ∧ h / 256 ≠ VIRTIO_NET_CTRL_MQ_VQ_PAIRS_SET) →
        process_cvq q m = .err .InvalidCtlCmd { q with avail := rest } m) ∧
      (h % 256 ≠ VIRTIO_NET_CTRL_MQ →
        process_cvq q m = .err .InvalidCtlClass { q with avail := rest } m) ∧
      (∀ (e : Error) (m2 : Mem),
        h % 256 = VIRTIO_NET_CTRL_MQ → h / 256 = VIRTIO_NET_CTRL_MQ_VQ_PAIRS_SET →
        process_mq m d = .err e m2 →
        process_cvq q m = .err .FailedProcessMQ { q with avail := rest } m2) := by
  intro q m d rest h havail hread
  refine ⟨?_, ?_, ?_⟩
  · rintro ⟨hc, hcmd⟩
    simp [process_cvq, havail, hread, hc, hcmd]
  · intro hc
    simp [process_cvq, havail, hread, hc]
  · intro e m2 hc hcmd hmq
    simp [process_cvq, havail, hread, hc, hcmd, hmq]

/-- Header descriptor used by the C5 witness (index 7, addr 0, len 2). -/
def d5 : Descriptor := .last 7 0 2 false

/-- C5 witness memory: header bytes 255, 0 at addresses 0 and 1, so the
command class is 255 and the command code 0. -/
def mem5 : Mem := [(0, 255), (1, 0)]

/-- C5 witness queue exposing exactly the chain d5. -/
def q5 : Queue := ⟨[d5], [], 0⟩

/-- C5 witness: class 255 is not VIRTIO_NET_CTRL_MQ, so the call fails
with InvalidCtlClass. -/
theorem C5_header_dispatch_witness :
    mem5.read_u16 d5.addr = some 255 ∧
    255 % 256 ≠ VIRTIO_NET_CTRL_MQ ∧
    process_cvq q5 mem5 = .err .InvalidCtlClass { q5 with avail := ([] : List Descriptor) } mem5 :=
  ⟨by decide, by decide,
    (C5_header_dispatch q5 mem5 d5 [] 255 rfl (by decide)).2.1 (by decide)⟩

/-- C10: on any descriptor chain in which every link whose NEXT flag is
set really has a successor (so has_next = true implies next_descriptor is
some), both unwrap sites of process_mq are unreachable: the function
never panics, returning an error value such as NoQueuePairsNum instead
when a successor is absent. -/
theorem C10_process_mq_no_panic_on_wf :
    ∀ (m : Mem) (d : Descriptor), d.wf = true → process_mq m d ≠ .panicked := by
  intro m d hwf
  by_cases h1 : d.has_next = true
  · obtain ⟨nd, hnd, hndwf⟩ := d.wf_next hwf h1
    cases hr : Mem.read_u16 m nd.addr with
    | none => simp [process_mq, h1, hnd, hr]
    | some n =>
      by_cases hrange : n < VIRTIO_NET_CTRL_MQ_VQ_PAIRS_MIN ∨
          VIRTIO_NET_CTRL_MQ_VQ_PAIRS_MAX < n
      · simp [process_mq, h1, hnd, hr, hrange]
      · by_cases h2 : nd.has_next = true
        · obtain ⟨sd, hsd, _⟩ := nd.wf_next hndwf h2
          cases hw : Mem.write_u8 m 0 sd.addr with
          | none => simp [process_mq, h1, hnd, hr, hrange, h2, hsd, hw]
          | some m2 => simp [process_mq, h1, hnd, hr, hrange, h2, hsd, hw]
        · simp [process_mq, h1, hnd, hr, hrange, h2]
  · simp [process_mq, h1]

/-- C10 witness: the chain dW is well formed, and on a guest memory with
no mapped addresses process_mq returns an error rather than panicking. -/
theorem C10_process_mq_no_panic_on_wf_witness :
    dW.wf = true ∧ process_mq [] dW ≠ .panicked :=
  ⟨rfl, C10_process_mq_no_panic_on_wf [] dW rfl⟩

/-- C8: over any trace of wait results, an interrupted wait is retried
with no other effect; any other wait failure is the abnormal exit,
surfacing the epoll error with the multiplexer handle closed; a normal
(Ok) exit happens only when some ready batch carries the kill event; a
batch carrying the kill event ends the loop at once, with only the
command processing that preceded the kill inside that batch and nothing
from the remaining trace, and with the handle closed; and every exit,
normal or abnormal, leaves the handle closed. -/
theorem C8_run_ctrl_kill_is_only_normal_exit :
    ∀ (t : List WaitResult) (evs : List Nat) (rest : List WaitResult),
      run_ctrl (.interrupted :: t) = run_ctrl t ∧
      run_ctrl (.fatal :: t) = ⟨some .epollWaitErr, 0, true⟩ ∧
      ((run_ctrl t).exit = some .normal → traceHasKill t = true) ∧
      (KILL_EVENT ∈ evs →
        run_ctrl (.ready evs :: rest) = ⟨some .normal, (processEvents evs).1, true⟩) ∧
      ((run_ctrl t).exit.isSome = true → (run_ctrl t).epollClosed = true) := by
  intro t evs rest
  refine ⟨rfl, rfl, run_ctrl_normal_kill t, ?_, run_ctrl_exit_closed t⟩
  intro hk
  simp [run_ctrl, processEvents_kill evs hk]

/-- C8 witness: a ready batch [ctrl, kill, ctrl] followed by further
trace entries exits normally at the kill event after exactly the one
process_cvq call that preceded it, with the handle closed. -/
theorem C8_run_ctrl_kill_witness :
    KILL_EVENT ∈ [CTRL_QUEUE_EVENT, KILL_EVENT, CTRL_QUEUE_EVENT] ∧
    run_ctrl [.ready [CTRL_QUEUE_EVENT, KILL_EVENT, CTRL_QUEUE_EVENT],
        .ready [CTRL_QUEUE_EVENT]] =
      ⟨some .normal, 1, true⟩ := by
  refine ⟨by decide, ?_⟩
  have h := (C8_run_ctrl_kill_is_only_normal_exit []
      [CTRL_QUEUE_EVENT, KILL_EVENT, CTRL_QUEUE_EVENT]
      [.ready [CTRL_QUEUE_EVENT]]).2.2.2.1 (by decide)
  rw [h]
  rfl
